import Mathlib

/-!
Verification of the type-representation and lowering engine in `src/ty.rs`
(the `Type` / `TypeNode` model, its structural accessors, the lowering from
parsed `syn` type expressions, and the name-and-generics synthesis).

The Rust `Type` wrapper struct is embedded as `Ty` (the word `Type` is
reserved in Lean); `TypeNode`, the constructors and the accessors keep their
source names.  Fallible operations (Rust panics) are embedded as `Option`:
`none` models abrupt termination.  Token streams produced by `quote!` are
embedded as `List String` (one entry per emitted token group).
-/

namespace Reflect

/-- Embeds `Ident` (a wrapper around a syn identifier): modelled as its text. -/
abbrev Ident := String

/-- Embeds `Lifetime { ident: Ident }` (see `syn_to_type`, ty.rs lines 138-140). -/
structure Lifetime where
  ident : Ident
deriving DecidableEq, Repr

/-- Embeds `TypeParam`: a generic type parameter identified by its bare identifier. -/
structure TypeParam where
  ident : Ident
deriving DecidableEq, Repr

/-- Modelled from the spec: `TypeParamBound` lives outside `src/` (generics.rs);
the spec treats bounds as opaque named capability descriptors, so the model
keeps only the printed form used by synthesis. -/
structure TypeParamBound where
  printed : String
deriving DecidableEq, Repr

/-- Modelled from the spec: `GenericConstraint` lives outside `src/`; the spec
treats constraints as opaque bound-descriptors, kept here as printed text. -/
structure GenericConstraint where
  printed : String
deriving DecidableEq, Repr

/-- Modelled from the spec: `GenericParam` lives outside `src/` (generics.rs).
ty.rs matches on the `GenericParam::Type` variant (line 124); the remaining
variants (lifetime and const parameters) are carried so the match is honest. -/
inductive GenericParam where
  | Type (tp : TypeParam)
  | Lifetime (lt : Lifetime)
  | Const (ident : Ident)
deriving DecidableEq, Repr

/-- Embeds `Generics { params, constraints }` as destructured in
`name_and_generics` (ty.rs lines 237-245). -/
structure Generics where
  params : List GenericParam
  constraints : List GenericConstraint
deriving DecidableEq, Repr

/-- Modelled from the spec: the reflect `Path` type lives outside `src/`
(path.rs).  The spec calls it "a named type reference (possibly itself
carrying generic arguments)"; generic arguments embedded in a path are a
known incompleteness of synthesis, so the model keeps the leading-colon flag
and the segment identifiers. -/
structure Path where
  leadingColon : Bool
  segments : List Ident
deriving DecidableEq, Repr

/-- Modelled from the spec: the printed form of a path (`Print` for `Path`
lives outside `src/`): the `::`-joined segment list, with a leading `::` when
the path is globally qualified. -/
def Path.print (p : Path) : String :=
  (if p.leadingColon then "::" else "") ++ String.intercalate "::" p.segments

/-- Field of a data structure; `data()` reads `field.element` (ty.rs line 84). -/
structure Field (α : Type) where
  name : Ident
  element : α
deriving DecidableEq, Repr

/-- Modelled from the spec: `Data<T>` lives outside `src/` (data.rs); the spec
calls it "a description of its fields, each field's declared type already
lowered to Type", so the model is the list of named fields. -/
structure Data (α : Type) where
  fields : List (Field α)
deriving DecidableEq, Repr

/-- Modelled from the spec: `Data::map` replaces every field's element with
the image of the field under the supplied function, keeping names and order. -/
def Data.map {α β : Type} (d : Data α) (f : Field α → β) : Data β :=
  ⟨d.fields.map fun fd => ⟨fd.name, f fd⟩⟩

mutual

/-- Embeds `pub struct Type(pub(crate) TypeNode)` (ty.rs line 13). -/
inductive Ty : Type where
  | mk : TypeNode → Ty

/-- Embeds `enum TypeNode` (ty.rs lines 16-37).  `Reference`/`ReferenceMut`
hold a boxed `TypeNode` in the source, so the inner child here is a
`TypeNode`, while `Tuple` holds `Vec<Type>` and so holds `List Ty`. -/
inductive TypeNode : Type where
  | Infer : TypeNode
  | Tuple : List Ty → TypeNode
  | PrimitiveStr : TypeNode
  | Reference : Option Lifetime → TypeNode → TypeNode
  | ReferenceMut : Option Lifetime → TypeNode → TypeNode
  | Dereference : TypeNode → TypeNode
  | TraitObject : List TypeParamBound → TypeNode
  | DataStructure : Ident → Generics → Data Ty → TypeNode
  | Path : Path → TypeNode
  | TypeParam : TypeParam → TypeNode

end

/-- Projection for the `Type(TypeNode)` wrapper (`self.0` in the source). -/
def Ty.node : Ty → TypeNode
  | .mk n => n

/-- Embeds `Type::unit` (ty.rs lines 40-42). -/
def Ty.unit : Ty := .mk (.Tuple [])

/-- Embeds `Type::tuple` (ty.rs lines 44-46): literal wrapping of the slice. -/
def Ty.tuple (types : List Ty) : Ty := .mk (.Tuple types)

/-- Embeds `Type::primitive_str` (ty.rs lines 48-50). -/
def Ty.primitive_str : Ty := .mk .PrimitiveStr

/-- Embeds `Type::reference` (ty.rs lines 52-57): wraps in `Reference` with
`lifetime: None`. -/
def Ty.reference (t : Ty) : Ty := .mk (.Reference none t.node)

/-- Embeds `Type::reference_mut` (ty.rs lines 59-64). -/
def Ty.reference_mut (t : Ty) : Ty := .mk (.ReferenceMut none t.node)

/-- Embeds `Type::dereference` (ty.rs lines 66-72): strips one reference
level (dropping the lifetime), otherwise wraps in a `Dereference` marker.
Total: the source has no panicking branch here. -/
def Ty.dereference (t : Ty) : Ty :=
  match t.node with
  | .Reference _ inner => .mk inner
  | .ReferenceMut _ inner => .mk inner
  | other => .mk (.Dereference other)

/-- Embeds `Type::get_tuple_type` (ty.rs lines 108-113): `types[index]` on a
`Tuple` (a Rust index panic out of bounds is `none`), panic on any other
variant (`none`). -/
def Ty.get_tuple_type (t : Ty) (index : Nat) : Option Ty :=
  match t.node with
  | .Tuple types => types[index]?
  | _ => none

/-- Embeds `Type::data` (ty.rs lines 82-105), with `none` for the panic on a
non-data-structure: a `DataStructure` yields its fields; a reference layer
wraps every field of the inner type's data in the same reference kind and
lifetime; anything else is fatal. -/
def TypeNode.dataFn : TypeNode → Option (Data Ty)
  | .DataStructure _ _ d => some (d.map fun field => field.element)
  | .Reference lifetime inner =>
    (TypeNode.dataFn inner).map fun d =>
      d.map fun field => Ty.mk (.Reference lifetime field.element.node)
  | .ReferenceMut lifetime inner =>
    (TypeNode.dataFn inner).map fun d =>
      d.map fun field => Ty.mk (.ReferenceMut lifetime field.element.node)
  | _ => none

/-- Embeds the public `Type::data` entry point. -/
def Ty.data (t : Ty) : Option (Data Ty) := t.node.dataFn

/-- Joins token lists with a `,` token between consecutive ones, as the
`#(#types),*` repetition of `quote!` does. -/
def joinComma : List (List String) → List String
  | [] => []
  | [x] => x
  | x :: xs => x ++ "," :: joinComma xs

/-- Prints an optional lifetime (`lifetime.as_ref().map(Print::ref_cast)` in
`name_and_generics`): an absent lifetime contributes no token. -/
def printLifetimeOpt : Option Lifetime → List String
  | none => []
  | some lt => ["'" ++ lt.ident]

mutual

/-- Modelled from the spec: `Print::ref_cast` for `Type` (the `Print`
implementation lives outside `src/`); used by the `Tuple` branch of
`name_and_generics` to print the element types.  No theorem depends on the
exact tokens, only on the structure of the synthesis output. -/
def Ty.print : Ty → List String
  | .mk n => TypeNode.print n

/-- Modelled from the spec: printing of a `TypeNode` (see `Ty.print`). -/
def TypeNode.print : TypeNode → List String
  | .Infer => ["_"]
  | .Tuple types => "(" :: joinComma (printTyList types) ++ [")"]
  | .PrimitiveStr => ["str"]
  | .Reference lifetime inner =>
    "&" :: printLifetimeOpt lifetime ++ TypeNode.print inner
  | .ReferenceMut lifetime inner =>
    "&" :: "mut" :: printLifetimeOpt lifetime ++ TypeNode.print inner
  | .Dereference inner => "*" :: TypeNode.print inner
  | .TraitObject bounds => "dyn" :: joinComma (bounds.map fun b => [b.printed])
  | .DataStructure name _ _ => [name]
  | .Path p => [p.print]
  | .TypeParam tp => [tp.ident]

/-- Prints each element of a list of types (the mapped `Print::ref_cast`). -/
def printTyList : List Ty → List (List String)
  | [] => []
  | t :: ts => Ty.print t :: printTyList ts

end

/-- Embeds `TypeNode::name_and_generics` (ty.rs lines 201-259), with `none`
for the panics.  Branch by branch:
`Infer` and `Dereference` panic; `Tuple` prints the parenthesized
comma-joined element list and returns `Vec::new()` for both the parameter
and the constraint list (the source does not recurse here); `PrimitiveStr`
is the fixed name `str`; `Reference`/`ReferenceMut` recurse and pass the
inner parameters and constraints through; `TraitObject` panics unless the
bound list has length 1, and then prints `dyn` followed by the bound;
`DataStructure` returns its own declared params and constraints;
`Path` emits `quote!(path)` — the literal token `path`, since the binding
`let path = Print::ref_cast(path)` is never interpolated (`#path`) — with
empty lists; `TypeParam` has an empty name and contributes itself as the
single parameter. -/
def TypeNode.name_and_generics :
    TypeNode → Option (List String × List GenericParam × List GenericConstraint)
  | .Infer => none
  | .Tuple types =>
    some ("(" :: joinComma (printTyList types) ++ [")"], [], [])
  | .PrimitiveStr => some (["str"], [], [])
  | .Reference lifetime inner =>
    (TypeNode.name_and_generics inner).map fun r =>
      ("&" :: printLifetimeOpt lifetime ++ r.1, r.2.1, r.2.2)
  | .ReferenceMut lifetime inner =>
    (TypeNode.name_and_generics inner).map fun r =>
      ("&" :: "mut" :: printLifetimeOpt lifetime ++ r.1, r.2.1, r.2.2)
  | .Dereference _ => none
  | .TraitObject type_param_bound =>
    if type_param_bound.length != 1 then none
    else (type_param_bound[0]?).map fun b => (["dyn", b.printed], [], [])
  | .DataStructure name ⟨params, constraints⟩ _ =>
    some ([name], params, constraints)
  | .Path _path => some (["path"], [], [])
  | .TypeParam type_param =>
    some ([], [GenericParam.Type type_param], [])

/-- Embeds the public `Type::name_and_generics` (ty.rs lines 173-177). -/
def Ty.name_and_generics (t : Ty) :
    Option (List String × List GenericParam × List GenericConstraint) :=
  t.node.name_and_generics

/-- Embeds a `syn::PathSegment` restricted to its identifier.  Modelled from
the spec for the part outside `src/`: generic arguments carried inside a
path segment are lowered by `Path::syn_to_path` (path.rs, not in `src/`) and
are out of scope for the claims, so segments are bare identifiers here (for
`get_ident` this is faithful: syn's `get_ident` also requires every segment
to be argument-free). -/
structure SynPathSegment where
  ident : Ident
deriving DecidableEq, Repr

/-- Embeds `syn::Path`: optional leading `::` plus segments. -/
structure SynPath where
  leadingColon : Bool
  segments : List SynPathSegment
deriving DecidableEq, Repr

/-- Embeds syn's `Path::get_ident`: `Some` exactly for a path with no
leading colon and a single (argument-free) segment. -/
def SynPath.get_ident : SynPath → Option Ident
  | ⟨false, [s]⟩ => some s.ident
  | _ => none

/-- Modelled from the spec: a parsed trait bound as fed to
`generics::syn_to_type_param_bounds`; opaque except for its printed form. -/
structure SynBound where
  printed : String
deriving DecidableEq, Repr

/-- Embeds the subset of `syn::Type` shapes that `syn_to_type` distinguishes
(ty.rs lines 115-171): a (possibly qualified) path, a reference, a trait
object, a parenthesized/tuple group, and `Other` for every remaining shape
(array, slice, function pointer, impl-trait, ...), which the source leaves
to the catch-all `unimplemented!` arm. -/
inductive SynType where
  | Path (qself : Option Unit) (path : SynPath)
  | Reference (lifetime : Option Ident) (mutability : Bool) (elem : SynType)
  | TraitObject (bounds : List SynBound)
  | Tuple (elems : List SynType) (trailingPunct : Bool)
  | Other
deriving Repr

/-- Modelled from the spec: `Path::syn_to_path` (path.rs, outside `src/`)
performs structural path lowering; with segment arguments out of scope in
this model it carries the leading colon and segment identifiers over (the
in-scope parameter list would only be consulted for embedded generic
arguments). -/
def Path.syn_to_path (path : SynPath) (_params : List GenericParam) : Path :=
  ⟨path.leadingColon, path.segments.map fun s => s.ident⟩

/-- Modelled from the spec: `generics::syn_to_type_param_bounds` (outside
`src/`) lowers every bound in order against the in-scope parameters; bounds
are opaque in this model. -/
def syn_to_type_param_bounds (bounds : List SynBound)
    (_params : List GenericParam) : List TypeParamBound :=
  bounds.map fun b => TypeParamBound.mk b.printed

mutual

/-- Embeds `Type::syn_to_type` (ty.rs lines 115-171), with `none` for the
`unimplemented!` panics.  A path with `qself: None`: if it is a bare
identifier matching the identifier of a `GenericParam::Type` entry of
`params`, produce `TypeParam`; otherwise produce `Path` via `syn_to_path`.
A path with a qualifying prefix falls to the catch-all (fatal).  A reference
lowers its element, keeping mutability and the optional lifetime.  A trait
object lowers all bounds.  A tuple: empty elements give `unit()`; a single
element with no trailing separator lowers to the element itself; otherwise a
`Tuple` of the lowered elements.  Everything else is fatal. -/
def Ty.syn_to_type : SynType → List GenericParam → Option Ty
  | .Path none path, params =>
    match path.get_ident with
    | some ident =>
      if params.any fun param =>
          match param with
          | GenericParam.Type ty => ty.ident == ident
          | _ => false
      then some (Ty.mk (.TypeParam ⟨ident⟩))
      else some (Ty.mk (.Path (Path.syn_to_path path params)))
    | none => some (Ty.mk (.Path (Path.syn_to_path path params)))
  | .Reference lifetime mutability elem, params =>
    (Ty.syn_to_type elem params).map fun inner =>
      let lt := lifetime.map fun i => Lifetime.mk i
      if mutability then Ty.mk (.ReferenceMut lt inner.node)
      else Ty.mk (.Reference lt inner.node)
  | .TraitObject bounds, params =>
    some (Ty.mk (.TraitObject (syn_to_type_param_bounds bounds params)))
  | .Tuple [] _, _ => some Ty.unit
  | .Tuple [e] false, params => Ty.syn_to_type e params
  | .Tuple elems _, params =>
    (syn_to_type_list elems params).map fun tys => Ty.mk (.Tuple tys)
  | .Path (some _) _, _ => none
  | .Other, _ => none

/-- Lowers a list of tuple elements in order (the mapped `syn_to_type` of
the `Tuple` arm); any fatal element aborts the whole lowering, as a panic
inside the Rust iterator would. -/
def syn_to_type_list : List SynType → List GenericParam → Option (List Ty)
  | [], _ => some []
  | e :: es, params =>
    (Ty.syn_to_type e params).bind fun t =>
      (syn_to_type_list es params).map fun ts => t :: ts

end

/-- Whether a node is the `Tuple` variant. -/
def TypeNode.isTuple : TypeNode → Bool
  | .Tuple _ => true
  | _ => false

/-- Whether a node is the `DataStructure` variant. -/
def TypeNode.isDataStructure : TypeNode → Bool
  | .DataStructure _ _ _ => true
  | _ => false

/-- Whether a node is one of the two reference variants (the two arms that
`dereference` collapses and `data` unwraps). -/
def TypeNode.isReference : TypeNode → Bool
  | .Reference _ _ => true
  | .ReferenceMut _ _ => true
  | _ => false

/-- Strips every outer `Reference`/`ReferenceMut` layer off a node. -/
def TypeNode.stripRefs : TypeNode → TypeNode
  | .Reference _ inner => TypeNode.stripRefs inner
  | .ReferenceMut _ inner => TypeNode.stripRefs inner
  | n => n

/-- One enclosing reference layer: its mutability and its lifetime. -/
structure RefLayer where
  mutab : Bool
  lifetime : Option Lifetime

/-- Wraps a node in the given reference layers, outermost layer first. -/
def applyLayers : List RefLayer → TypeNode → TypeNode
  | [], n => n
  | l :: ls, n =>
    if l.mutab then .ReferenceMut l.lifetime (applyLayers ls n)
    else .Reference l.lifetime (applyLayers ls n)

theorem Ty.mk_node (t : Ty) : Ty.mk t.node = t := by
  cases t
  rfl

theorem Data.map_map {α β γ : Type} (d : Data α) (f : Field α → β)
    (g : Field β → γ) :
    (d.map f).map g = d.map fun fd => g ⟨fd.name, f fd⟩ := by
  simp [Data.map, List.map_map, Function.comp]

theorem dataFn_layers (L : List RefLayer) (name : Ident) (g : Generics)
    (d : Data Ty) :
    (applyLayers L (.DataStructure name g d)).dataFn
      = some (d.map fun fd => Ty.mk (applyLayers L fd.element.node)) := by
  induction L with
  | nil => simp [applyLayers, TypeNode.dataFn, Ty.mk_node]
  | cons l ls ih =>
    cases hm : l.mutab <;>
      simp [applyLayers, hm, TypeNode.dataFn, ih, Data.map_map, Ty.node]

theorem dataFn_strip_none :
    (n : TypeNode) → n.stripRefs.isDataStructure = false → n.dataFn = none
  | .Infer, _ => rfl
  | .Tuple _, _ => rfl
  | .PrimitiveStr, _ => rfl
  | .Reference _ inner, h => by
    have ih := dataFn_strip_none inner (by simpa [TypeNode.stripRefs] using h)
    simp [TypeNode.dataFn, ih]
  | .ReferenceMut _ inner, h => by
    have ih := dataFn_strip_none inner (by simpa [TypeNode.stripRefs] using h)
    simp [TypeNode.dataFn, ih]
  | .Dereference _, _ => rfl
  | .TraitObject _, _ => rfl
  | .DataStructure _ _ _, h => by
    simp [TypeNode.stripRefs, TypeNode.isDataStructure] at h
  | .Path _, _ => rfl
  | .TypeParam _, _ => rfl

/-- C3: for every Type value `t`, `t.reference().dereference()` is
structurally equal to `t` (the lifetime introduced by `reference()` is
`None` and is dropped again by `dereference()`). -/
theorem reference_dereference_round_trip (t : Ty) :
    t.reference.dereference = t := by
  cases t
  rfl

/-- C4: `dereference()` strips one level (discarding the lifetime) off a
`Reference` or `ReferenceMut` node, wraps any other node in a `Dereference`
marker, and never fails (it is a total function: the source has no panic in
`Type::dereference`). -/
theorem dereference_spec :
    (∀ (lt : Option Lifetime) (inner : TypeNode),
      (Ty.mk (.Reference lt inner)).dereference = Ty.mk inner) ∧
    (∀ (lt : Option Lifetime) (inner : TypeNode),
      (Ty.mk (.ReferenceMut lt inner)).dereference = Ty.mk inner) ∧
    (∀ n : TypeNode, n.isReference = false →
      (Ty.mk n).dereference = Ty.mk (.Dereference n)) := by
  refine ⟨fun lt inner => rfl, fun lt inner => rfl, fun n h => ?_⟩
  cases n <;> simp_all [TypeNode.isReference, Ty.dereference, Ty.node]

/-- Witness for C4: dereferencing the non-reference node `PrimitiveStr`
wraps it in a `Dereference` marker. -/
theorem dereference_spec_witness :
    (Ty.mk .PrimitiveStr).dereference = Ty.mk (.Dereference .PrimitiveStr) :=
  dereference_spec.2.2 .PrimitiveStr rfl

/-- C9: `get_tuple_type(index)` returns the element at `index` of a `Tuple`
when the index is in bounds (so under the precondition the failure branch is
unreachable), and fails (`none`, the panic) when the receiver is not a
`Tuple` or the index is out of bounds. -/
theorem get_tuple_type_spec :
    (∀ (types : List Ty) (i : Nat) (h : i < types.length),
      (Ty.mk (.Tuple types)).get_tuple_type i = some (types.get ⟨i, h⟩)) ∧
    (∀ t : Ty, t.node.isTuple = false →
      ∀ i : Nat, t.get_tuple_type i = none) ∧
    (∀ (types : List Ty) (i : Nat), types.length ≤ i →
      (Ty.mk (.Tuple types)).get_tuple_type i = none) := by
  refine ⟨fun types i h => ?_, fun t h i => ?_, fun types i h => ?_⟩
  · simp [Ty.get_tuple_type, Ty.node, List.getElem?_eq_getElem h]
  · obtain ⟨n⟩ := t
    cases n <;> simp_all [TypeNode.isTuple, Ty.get_tuple_type, Ty.node]
  · simp [Ty.get_tuple_type, Ty.node, List.getElem?_eq_none h]

/-- Witness for C9: indexing the singleton tuple `([unit],)` at 0 yields the
unit type; indexing `str` (not a tuple) fails; indexing past the end fails. -/
theorem get_tuple_type_spec_witness :
    (Ty.mk (.Tuple [Ty.unit])).get_tuple_type 0 = some Ty.unit ∧
    Ty.primitive_str.get_tuple_type 0 = none ∧
    (Ty.mk (.Tuple [Ty.unit])).get_tuple_type 1 = none :=
  ⟨get_tuple_type_spec.1 [Ty.unit] 0 (by decide),
   get_tuple_type_spec.2.1 Ty.primitive_str rfl 0,
   get_tuple_type_spec.2.2 [Ty.unit] 1 (by decide)⟩

/-- C10: `Type::tuple(ts).get_tuple_type(i)` recovers `ts[i]` for every
in-bounds `i`, and the literal constructor preserves sequences of length 0
and 1 (no collapsing happens at construction time). -/
theorem tuple_get_tuple_type_round_trip :
    (∀ (ts : List Ty) (i : Nat) (h : i < ts.length),
      (Ty.tuple ts).get_tuple_type i = some (ts.get ⟨i, h⟩)) ∧
    Ty.tuple [] = Ty.mk (.Tuple []) ∧
    (∀ t : Ty, Ty.tuple [t] = Ty.mk (.Tuple [t])) := by
  refine ⟨fun ts i h => ?_, rfl, fun t => rfl⟩
  simp [Ty.tuple, Ty.get_tuple_type, Ty.node, List.getElem?_eq_getElem h]

/-- Witness for C10: the round trip at the concrete tuple `(str, ())` and
index 1. -/
theorem tuple_get_tuple_type_round_trip_witness :
    (Ty.tuple [Ty.primitive_str, Ty.unit]).get_tuple_type 1 = some Ty.unit :=
  tuple_get_tuple_type_round_trip.1 [Ty.primitive_str, Ty.unit] 1 (by decide)

/-- C8: `data()` on a `DataStructure` under any stack of reference layers
returns the structure's fields with every field type re-wrapped, innermost
to outermost, in the same reference kinds and lifetimes as the enclosing
layers; and `data()` fails (the panic) whenever the receiver is not a
`DataStructure` after stripping all reference layers. -/
theorem data_spec :
    (∀ (L : List RefLayer) (name : Ident) (g : Generics) (d : Data Ty),
      (Ty.mk (applyLayers L (.DataStructure name g d))).data
        = some (d.map fun fd => Ty.mk (applyLayers L fd.element.node))) ∧
    (∀ t : Ty, t.node.stripRefs.isDataStructure = false → t.data = none) := by
  constructor
  · intro L name g d
    simpa [Ty.data, Ty.node] using dataFn_layers L name g d
  · intro t h
    simpa [Ty.data] using dataFn_strip_none t.node h

/-- Witness for C8: a one-field structure `S { x: str }` behind a shared
reference with lifetime `'a` yields the field at type `&'a str`; calling
`data()` on `str` itself fails. -/
theorem data_spec_witness :
    (Ty.mk (.Reference (some ⟨"a"⟩)
        (.DataStructure "S" ⟨[], []⟩ ⟨[⟨"x", Ty.primitive_str⟩]⟩))).data
      = some ⟨[⟨"x", Ty.mk (.Reference (some ⟨"a"⟩) .PrimitiveStr)⟩]⟩ ∧
    Ty.primitive_str.data = none :=
  ⟨data_spec.1 [⟨false, some ⟨"a"⟩⟩] "S" ⟨[], []⟩ ⟨[⟨"x", Ty.primitive_str⟩]⟩,
   data_spec.2 Ty.primitive_str rfl⟩

/-- C7: synthesizing a `TraitObject` succeeds exactly for a single bound,
yielding the name `dyn` followed by the bound's printed form with empty
parameter and constraint lists; zero bounds or two-or-more bounds are fatal
(the length check in the source panics whenever the length is not 1). -/
theorem trait_object_name_and_generics_spec :
    (∀ b : TypeParamBound,
      (TypeNode.TraitObject [b]).name_and_generics
        = some (["dyn", b.printed], [], [])) ∧
    (∀ bounds : List TypeParamBound, bounds.length ≠ 1 →
      (TypeNode.TraitObject bounds).name_and_generics = none) := by
  constructor
  · intro b
    simp [TypeNode.name_and_generics]
  · intro bounds h
    simp [TypeNode.name_and_generics, h]

/-- Witness for C7: a single bound `Display` synthesizes to `dyn Display`;
the empty bound list and a two-bound list are both fatal. -/
theorem trait_object_name_and_generics_spec_witness :
    (TypeNode.TraitObject [⟨"Display"⟩]).name_and_generics
      = some (["dyn", "Display"], [], []) ∧
    (TypeNode.TraitObject []).name_and_generics = none ∧
    (TypeNode.TraitObject [⟨"Debug"⟩, ⟨"Clone"⟩]).name_and_generics = none :=
  ⟨trait_object_name_and_generics_spec.1 ⟨"Display"⟩,
   trait_object_name_and_generics_spec.2 [] (by decide),
   trait_object_name_and_generics_spec.2 [⟨"Debug"⟩, ⟨"Clone"⟩] (by decide)⟩

/-- Counterexample to C1 as stated: synthesizing the tuple `(T,)` whose
single element is the generic parameter `T` yields an empty parameter list,
not the claimed concatenation `[T]` of the elements' parameter lists — the
`Tuple` arm of `name_and_generics` returns `Vec::new()` for both lists and
never recurses into the elements. -/
theorem tuple_synthesis_claim_counterexample :
    ¬ ((TypeNode.Tuple [Ty.mk (.TypeParam ⟨"T"⟩)]).name_and_generics.map
        (fun r => r.2.1) = some [GenericParam.Type ⟨"T"⟩]) := by
  decide

/-- Nests a type inside `n` layers of one-element tuples. -/
def nestTuple : Nat → Ty → Ty
  | 0, t => t
  | n + 1, t => Ty.mk (.Tuple [nestTuple n t])

/-- C1 (amended): synthesizing a `Tuple` prints the parenthesized
comma-joined element list but contributes empty generic-parameter and
constraint lists regardless of the elements (the source does not recurse
into them); in particular a `TypeParam` wrapped in one or more `Tuple`
layers contributes no parameter to the synthesized list. -/
theorem tuple_name_and_generics_spec :
    (∀ types : List Ty,
      (TypeNode.Tuple types).name_and_generics
        = some ("(" :: joinComma (printTyList types) ++ [")"], [], [])) ∧
    (∀ (n : Nat) (tp : TypeParam),
      (nestTuple (n + 1) (Ty.mk (.TypeParam tp))).node.name_and_generics.map
        (fun r => r.2.1) = some []) := by
  constructor
  · intro types
    simp [TypeNode.name_and_generics]
  · intro n tp
    simp [nestTuple, Ty.node, TypeNode.name_and_generics]

/-- C2: the source's `Path` arm of `name_and_generics` binds
`Print::ref_cast(path)` but emits `quote!(path)` without interpolating the
binding, so the synthesized name is the literal token `path` rather than the
printed path: evaluated here on the path `String`, whose printed form
differs from that token.  The parameter and constraint lists are empty as
claimed. -/
theorem path_name_and_generics_literal_token :
    (TypeNode.Path ⟨false, ["String"]⟩).name_and_generics
      = some (["path"], [], []) ∧
    Path.print ⟨false, ["String"]⟩ = "String" ∧
    ("path" : String) ≠ "String" :=
  ⟨rfl, rfl, by decide⟩

/-- C5: lowering a parenthesized/tuple type expression yields `unit()` for
an empty element list; yields exactly the lowering of the single element
(never a length-1 `Tuple`) for one element without trailing separator;
yields a `Tuple` of the element lowerings otherwise (one element with a
trailing comma, or two or more elements); and the element lowerings are the
in-order lowerings of all elements. -/
theorem syn_to_type_tuple_spec :
    (∀ (b : Bool) (params : List GenericParam),
      Ty.syn_to_type (.Tuple [] b) params = some Ty.unit) ∧
    (∀ (e : SynType) (params : List GenericParam),
      Ty.syn_to_type (.Tuple [e] false) params = Ty.syn_to_type e params) ∧
    (∀ (e : SynType) (params : List GenericParam),
      Ty.syn_to_type (.Tuple [e] true) params
        = (syn_to_type_list [e] params).map fun tys => Ty.mk (.Tuple tys)) ∧
    (∀ (e₁ e₂ : SynType) (rest : List SynType) (b : Bool)
        (params : List GenericParam),
      Ty.syn_to_type (.Tuple (e₁ :: e₂ :: rest) b) params
        = (syn_to_type_list (e₁ :: e₂ :: rest) params).map
            fun tys => Ty.mk (.Tuple tys)) ∧
    (∀ (es : List SynType) (params : List GenericParam),
      syn_to_type_list es params = es.mapM fun e => Ty.syn_to_type e params) := by
  refine ⟨fun b params => ?_, fun e params => ?_, fun e params => ?_,
    fun e₁ e₂ rest b params => ?_, fun es params => ?_⟩
  · cases b <;> simp [Ty.syn_to_type]
  · simp [Ty.syn_to_type]
  · simp [Ty.syn_to_type]
  · cases b <;> simp [Ty.syn_to_type]
  · induction es with
    | nil => rfl
    | cons e es ih =>
      rw [List.mapM_cons]
      simp only [syn_to_type_list, ih]
      cases Ty.syn_to_type e params <;>
        cases es.mapM fun e => Ty.syn_to_type e params <;> rfl

/-- C6: lowering a bare unqualified path whose identifier matches a
`GenericParam::Type` entry of the in-scope parameter list yields
`TypeParam` with that identifier; when no `GenericParam::Type` entry
matches, it yields a `Path` obtained by resolving the same path against the
same parameter list. -/
theorem syn_to_type_bare_path_spec (p : SynPath) (params : List GenericParam)
    (ident : Ident) (h : p.get_ident = some ident) :
    (GenericParam.Type ⟨ident⟩ ∈ params →
      Ty.syn_to_type (.Path none p) params
        = some (Ty.mk (.TypeParam ⟨ident⟩))) ∧
    ((∀ tp : TypeParam, GenericParam.Type tp ∈ params → tp.ident ≠ ident) →
      Ty.syn_to_type (.Path none p) params
        = some (Ty.mk (.Path (Path.syn_to_path p params)))) := by
  constructor
  · intro hmem
    have hany : (params.any fun param =>
        match param with
        | GenericParam.Type ty => ty.ident == ident
        | _ => false) = true := by
      rw [List.any_eq_true]
      exact ⟨GenericParam.Type ⟨ident⟩, hmem, by simp⟩
    simp [Ty.syn_to_type, h, hany]
  · intro hnone
    have hany : (params.any fun param =>
        match param with
        | GenericParam.Type ty => ty.ident == ident
        | _ => false) = false := by
      rw [List.any_eq_false]
      intro param hparam
      rcases param with tp | lt | i
      · simpa using hnone tp hparam
      · simp
      · simp
    simp [Ty.syn_to_type, h, hany]

/-- Witness for C6: the bare path `T` lowers to `TypeParam T` when `T` is an
in-scope type parameter, and to the path `T` when only `U` is in scope. -/
theorem syn_to_type_bare_path_spec_witness :
    Ty.syn_to_type (.Path none ⟨false, [⟨"T"⟩]⟩) [GenericParam.Type ⟨"T"⟩]
      = some (Ty.mk (.TypeParam ⟨"T"⟩)) ∧
    Ty.syn_to_type (.Path none ⟨false, [⟨"T"⟩]⟩) [GenericParam.Type ⟨"U"⟩]
      = some (Ty.mk (.Path ⟨false, ["T"]⟩)) :=
  ⟨(syn_to_type_bare_path_spec ⟨false, [⟨"T"⟩]⟩ [GenericParam.Type ⟨"T"⟩] "T"
      rfl).1 (by simp),
   (syn_to_type_bare_path_spec ⟨false, [⟨"T"⟩]⟩ [GenericParam.Type ⟨"U"⟩] "T"
      rfl).2 (by intro tp hmem; simp at hmem; simp [hmem])⟩

end Reflect
